import Mathlib

/-!
Shallow embedding of the deepdos firewall module (`firewall.py`): the
offense-tracking and rule-escalation engine.  Python objects become Lean
structures, the Python `dict` becomes an association list with dict
semantics (lookup, in-place update, delete), and the Python `set` stored
in `Offender.port_mappings` becomes a duplicate-free list.  Machine
integers are `Nat` (Python integers are unbounded, and all counters here
are non-negative).  `IPtable.create_rule` in the source prints a line and
returns immediately (the code after its `return` statement is
unreachable); the embedding records each invocation in a ghost trace
`rule_calls` and, faithfully to the early return, changes nothing else.
-/

/--
An element of the Python set `Offender.port_mappings`.  The constructor
`set((port, protocol))` in `Offender.__init__` iterates the tuple and
inserts the port and the protocol as two separate scalar elements, while
`Offender.add_offense` inserts the tuple `(port, protocol)` as a single
element, so the set holds a mix of bare ports, bare protocol names and
port/protocol pairs.
-/
inductive PMElem where
  | portElem : Nat → PMElem
  | protoElem : String → PMElem
  | pairElem : Nat → String → PMElem
deriving DecidableEq, Repr

/-- The `Offender` class of `firewall.py`: accumulated state for one
suspicious connection identity. -/
structure Offender where
  src : String
  offenses : Nat
  port_mappings : List PMElem
  outbound : Bool
deriving DecidableEq, Repr

/-- `Offender.__init__(src, port, protocol, outbound)`: offense count 1,
and `port_mappings = set((port, protocol))`, i.e. the two scalar
elements `port` and `protocol` (not the pair). -/
def Offender.init (src : String) (port : Nat) (protocol : String)
    (outbound : Bool) : Offender :=
  { src := src
    offenses := 1
    port_mappings := [PMElem.portElem port, PMElem.protoElem protocol]
    outbound := outbound }

/-- Set insertion: add the element unless it is already present. -/
def insertPM (l : List PMElem) (e : PMElem) : List PMElem :=
  if e ∈ l then l else l ++ [e]

/-- `Offender.add_offense(port, protocol)`: increment the offense count
and add the pair `(port, protocol)` to the set. -/
def Offender.add_offense (o : Offender) (port : Nat) (protocol : String) :
    Offender :=
  { o with
    offenses := o.offenses + 1
    port_mappings := insertPM o.port_mappings (PMElem.pairElem port protocol) }

/-- Python `dict` lookup on an association list. -/
def dictGet {α : Type} : List (String × α) → String → Option α
  | [], _ => none
  | (k, v) :: rest, key => if k == key then some v else dictGet rest key

/-- Python `dict` assignment `d[key] = value`: update in place when the
key exists, append otherwise. -/
def dictSet {α : Type} : List (String × α) → String → α → List (String × α)
  | [], key, value => [(key, value)]
  | (k, v) :: rest, key, value =>
      if k == key then (key, value) :: rest else (k, v) :: dictSet rest key value

/-- Python `del d[key]`. -/
def dictDel {α : Type} : List (String × α) → String → List (String × α)
  | [], _ => []
  | (k, v) :: rest, key => if k == key then rest else (k, v) :: dictDel rest key

/-- One classified-malicious flow handed to `Firewall.track_ips`:
`((from_ip, to_ip), (from_port, to_port), protocol)`. -/
structure NetFlow where
  ips : String × String
  ports : Nat × Nat
  protocol : String
deriving DecidableEq, Repr

/-- The connection key built in `track_ips`: the string
`from_ip + "/" + to_ip`. -/
def flowKey (f : NetFlow) : String := f.ips.1 ++ "/" ++ f.ips.2

/--
The mutable state of a `Firewall` instance, as set up in
`Firewall.__init__`: the local interface address (the source reads it
from `interface_data[ip_version]["address"]`), the `naughty_count`
threshold, the live `offenders` dict, and the `input_banned` /
`output_banned` registries mapping banned addresses to install minutes.
`rule_calls` is a ghost trace recording each `create_rule` invocation
(observable in the source as the printed line
"- Creating rule for an offender").
-/
structure FWState where
  local_ip : String
  naughty_count : Nat
  offenders : List (String × Offender)
  input_banned : List (String × Nat)
  output_banned : List (String × Nat)
  rule_calls : List Offender
deriving DecidableEq, Repr

/-- A freshly constructed firewall: empty offender table and empty ban
registries. -/
def initState (local_ip : String) (naughty_count : Nat) : FWState :=
  { local_ip := local_ip
    naughty_count := naughty_count
    offenders := []
    input_banned := []
    output_banned := []
    rule_calls := [] }

/--
`IPtable.create_rule(offender)` as the source executes it: it prints
"- Creating rule for an offender" and then hits an unconditional
`return`; every statement after that point (rule construction, chain
insertion, ban-registry writes) is unreachable.  The embedding records
the invocation in the ghost trace and leaves all firewall state
unchanged.
-/
def IPtable.create_rule (st : FWState) (offender : Offender) : FWState :=
  { st with rule_calls := st.rule_calls ++ [offender] }

/-- Processing of a single flow inside the loop of
`Firewall.track_ips`. -/
def procFlow (st : FWState) (f : NetFlow) : FWState :=
  let from_ip := f.ips.1
  let to_ip := f.ips.2
  let outbound := from_ip == st.local_ip
  let port := if outbound then f.ports.1 else f.ports.2
  let connection := from_ip ++ "/" ++ to_ip
  match dictGet st.offenders connection with
  | some offender =>
      if offender.offenses > st.naughty_count then
        let st2 := IPtable.create_rule st offender
        { st2 with offenders := dictDel st2.offenders connection }
      else
        { st with offenders :=
            dictSet st.offenders connection (offender.add_offense port f.protocol) }
  | none =>
      let newOff := Offender.init connection port f.protocol outbound
      { st with offenders := dictSet st.offenders connection newOff }

/-- `Firewall.track_ips(connection_list)`: fold the per-flow processing
over the list of classified-malicious flows, in arrival order. -/
def track_ips (st : FWState) (connection_list : List NetFlow) : FWState :=
  connection_list.foldl procFlow st

/-- Python `str.split(c)` on a list of characters: splits at every
occurrence of the separator, keeping empty fields. -/
def splitOnChar (c : Char) : List Char → List (List Char)
  | [] => [[]]
  | a :: rest =>
      let r := splitOnChar c rest
      if a == c then [] :: r
      else (a :: r.headD []) :: r.tail

/--
The address selection in the unreachable tail of
`IPtable.create_rule`: `from_ip, to_ip = offender.src.split("/")` then
`ip = from_ip if from_ip == local_ip else to_ip`.  Returns `none` when
the split does not yield exactly two parts (the Python unpacking would
raise). -/
def create_rule_match_ip (local_ip : String) (src : String) : Option String :=
  match (splitOnChar '/' src.toList).map (fun l => String.mk l) with
  | [from_ip, to_ip] => some (if from_ip == local_ip then from_ip else to_ip)
  | _ => none

/-- The backend kinds the factory can return. -/
inductive FirewallBackend where
  | iptable
deriving DecidableEq, Repr

/-- The error text raised by `Firewall.create_firewall` for an
unsupported platform.  The source passes a plain string literal (not an
f-string) to `ValueError`, so the text ends with the literal
placeholder text "firewall_type" in braces, not the entered value. -/
def create_firewall_error_text : String :=
  "linux is the only supported operating system for firewall mode. You entered: \x7bfirewall_type\x7d"

/-- `Firewall.create_firewall`: returns the iptables backend for
`"linux"` and raises `ValueError` with the fixed message otherwise. -/
def create_firewall (firewall_type : String) : Except String FirewallBackend :=
  if firewall_type == "linux" then Except.ok FirewallBackend.iptable
  else Except.error create_firewall_error_text

/--
Modelled from the spec: the source's `IPtable.remove_rules` is an empty
stub (`pass`), and the spec (§4.4) requires the missing expiry
operation: `expireStaleBans(nowMinute, ttlMinutes)` iterates a ban
registry (address ↦ installedAtMinute) and removes every entry with
`nowMinute - installedAtMinute >= ttlMinutes`, leaving the others
untouched.
-/
def expireStaleBans (registry : List (String × Nat)) (nowMinute ttlMinutes : Nat) :
    List (String × Nat) :=
  registry.filter (fun entry => decide (nowMinute - entry.2 < ttlMinutes))

/-- A sample malicious flow used by concrete witnesses:
`(("1.2.3.4", "5.6.7.8"), (4444, 80), "tcp")`. -/
def sampleFlow : NetFlow :=
  { ips := ("1.2.3.4", "5.6.7.8"), ports := (4444, 80), protocol := "tcp" }

/-- The offenders table projected to (key, offense count) pairs. -/
def offenseView (st : FWState) : List (String × Nat) :=
  st.offenders.map (fun p => (p.1, p.2.offenses))

/-- Boolean invariant: every live offender's count is at most
`naughty_count + 1`. -/
def offendersBounded (st : FWState) : Bool :=
  st.offenders.all (fun p => decide (p.2.offenses ≤ st.naughty_count + 1))

/-- A same-key flow whose locally-relevant port is 80 (inbound at local
address 10.0.0.5, so the `to_port` is picked). -/
def flowPort80 : NetFlow :=
  { ips := ("1.2.3.4", "5.6.7.8"), ports := (1111, 80), protocol := "tcp" }

/-- A same-key flow whose locally-relevant port is 443. -/
def flowPort443 : NetFlow :=
  { ips := ("1.2.3.4", "5.6.7.8"), ports := (2222, 443), protocol := "tcp" }

/-- The offender created by processing `sampleFlow` at local address
10.0.0.5 (inbound, locally-relevant port 80). -/
def sampleOffender : Offender := Offender.init "1.2.3.4/5.6.7.8" 80 "tcp" false

/-! ## Basic facts about the embedded dictionary operations -/

theorem dictGet_single {α : Type} (k : String) (v : α) : dictGet [(k, v)] k = some v := by
  simp [dictGet]

theorem dictSet_single {α : Type} (k : String) (v w : α) :
    dictSet [(k, v)] k w = [(k, w)] := by
  simp [dictSet]

theorem dictDel_single {α : Type} (k : String) (v : α) : dictDel [(k, v)] k = [] := by
  simp [dictDel]

theorem mem_dictSet {α : Type} (d : List (String × α)) (k : String) (v : α)
    (p : String × α) (hp : p ∈ dictSet d k v) : p ∈ d ∨ p = (k, v) := by
  induction d with
  | nil =>
      simp only [dictSet, List.mem_singleton] at hp
      exact Or.inr hp
  | cons hd tl ih =>
      obtain ⟨k2, v2⟩ := hd
      simp only [dictSet] at hp
      by_cases hk : (k2 == k) = true
      · rw [if_pos hk] at hp
        rcases List.mem_cons.mp hp with h | h
        · exact Or.inr h
        · exact Or.inl (List.mem_cons_of_mem _ h)
      · rw [if_neg hk] at hp
        rcases List.mem_cons.mp hp with h | h
        · exact Or.inl (by simp [h])
        · rcases ih h with h2 | h2
          · exact Or.inl (List.mem_cons_of_mem _ h2)
          · exact Or.inr h2

theorem mem_dictDel {α : Type} (d : List (String × α)) (k : String)
    (p : String × α) (hp : p ∈ dictDel d k) : p ∈ d := by
  induction d with
  | nil => simp [dictDel] at hp
  | cons hd tl ih =>
      obtain ⟨k2, v2⟩ := hd
      simp only [dictDel] at hp
      by_cases hk : (k2 == k) = true
      · rw [if_pos hk] at hp
        exact List.mem_cons_of_mem _ hp
      · rw [if_neg hk] at hp
        rcases List.mem_cons.mp hp with h | h
        · simp [h]
        · exact List.mem_cons_of_mem _ (ih h)

/-! ## Branch lemmas for processing one flow -/

theorem procFlow_new (st : FWState) (f : NetFlow)
    (hnone : dictGet st.offenders (f.ips.1 ++ "/" ++ f.ips.2) = none) :
    procFlow st f =
      { st with
          offenders := dictSet st.offenders (f.ips.1 ++ "/" ++ f.ips.2)
                         (Offender.init (f.ips.1 ++ "/" ++ f.ips.2)
                           (if f.ips.1 == st.local_ip then f.ports.1 else f.ports.2)
                           f.protocol (f.ips.1 == st.local_ip)) } := by
  simp only [procFlow, hnone]

theorem procFlow_found_low (st : FWState) (f : NetFlow) (o : Offender)
    (hsome : dictGet st.offenders (f.ips.1 ++ "/" ++ f.ips.2) = some o)
    (hlow : ¬ o.offenses > st.naughty_count) :
    procFlow st f =
      { st with
          offenders := dictSet st.offenders (f.ips.1 ++ "/" ++ f.ips.2)
                         (o.add_offense
                           (if f.ips.1 == st.local_ip then f.ports.1 else f.ports.2)
                           f.protocol) } := by
  simp only [procFlow, hsome, if_neg hlow]

theorem procFlow_found_high (st : FWState) (f : NetFlow) (o : Offender)
    (hsome : dictGet st.offenders (f.ips.1 ++ "/" ++ f.ips.2) = some o)
    (hhigh : o.offenses > st.naughty_count) :
    procFlow st f =
      { st with offenders := dictDel st.offenders (f.ips.1 ++ "/" ++ f.ips.2),
                rule_calls := st.rule_calls ++ [o] } := by
  simp only [procFlow, hsome, if_pos hhigh, IPtable.create_rule]

theorem track_ips_snoc (st : FWState) (l : List NetFlow) (f : NetFlow) :
    track_ips st (l ++ [f]) = procFlow (track_ips st l) f := by
  simp [track_ips]

/-! ## Preservation of the offense-count bound -/

theorem procFlow_preserves_bounded (st : FWState) (f : NetFlow)
    (h : offendersBounded st = true) : offendersBounded (procFlow st f) = true := by
  rw [offendersBounded, List.all_eq_true] at h
  rw [offendersBounded, List.all_eq_true]
  cases hget : dictGet st.offenders (f.ips.1 ++ "/" ++ f.ips.2) with
  | none =>
      rw [procFlow_new st f hget]
      intro p hp
      rcases mem_dictSet _ _ _ p hp with hmem | hval
      · exact h p hmem
      · subst hval
        simp only [Offender.init, decide_eq_true_eq]
        omega
  | some o =>
      by_cases hhigh : o.offenses > st.naughty_count
      · rw [procFlow_found_high st f o hget hhigh]
        intro p hp
        exact h p (mem_dictDel _ _ p hp)
      · rw [procFlow_found_low st f o hget hhigh]
        intro p hp
        rcases mem_dictSet _ _ _ p hp with hmem | hval
        · exact h p hmem
        · subst hval
          have ho : o.offenses ≤ st.naughty_count := Nat.not_lt.mp hhigh
          simp only [Offender.add_offense, decide_eq_true_eq]
          omega

/-! ## Runs of flows sharing one connection key, from a fresh firewall -/

theorem same_key_run (localAddr a b : String) (t : Nat) :
    ∀ fs : List NetFlow, (∀ g ∈ fs, g.ips = (a, b)) →
      1 ≤ fs.length → fs.length ≤ t + 1 →
      ∃ o : Offender, o.offenses = fs.length ∧
        track_ips (initState localAddr t) fs =
          { initState localAddr t with offenders := [(a ++ "/" ++ b, o)] } := by
  intro fs
  induction fs using List.reverseRecOn with
  | nil => intro _ h1 _; simp at h1
  | append_singleton l g ih =>
    intro hkey h1 h2
    have hg : g.ips = (a, b) := hkey g (by simp)
    have hcon : g.ips.1 ++ "/" ++ g.ips.2 = a ++ "/" ++ b := by rw [hg]
    rcases eq_or_ne l [] with hl | hl
    · subst hl
      refine ⟨Offender.init (g.ips.1 ++ "/" ++ g.ips.2)
                (if g.ips.1 == localAddr then g.ports.1 else g.ports.2)
                g.protocol (g.ips.1 == localAddr), rfl, ?_⟩
      have heq : track_ips (initState localAddr t) ([] ++ [g]) =
          procFlow (initState localAddr t) g := rfl
      rw [heq, procFlow_new (initState localAddr t) g rfl]
      simp [initState, dictSet, hcon]
    · have hkl : ∀ x ∈ l, x.ips = (a, b) := fun x hx => hkey x (List.mem_append_left _ hx)
      have h1l : 1 ≤ l.length := by
        rcases l with _ | ⟨x, xs⟩
        · exact absurd rfl hl
        · simp
      have hlen_le : l.length ≤ t := by
        rw [List.length_append, List.length_singleton] at h2
        omega
      obtain ⟨o, ho, hst⟩ := ih hkl h1l (by omega)
      have hsome : dictGet [(a ++ "/" ++ b, o)] (g.ips.1 ++ "/" ++ g.ips.2) = some o := by
        rw [hcon]
        exact dictGet_single _ _
      have hlow : ¬ o.offenses > t := by
        rw [ho]
        omega
      refine ⟨o.add_offense (if g.ips.1 == localAddr then g.ports.1 else g.ports.2)
                g.protocol, ?_, ?_⟩
      · simp [Offender.add_offense, ho]
      · rw [track_ips_snoc, hst]
        rw [procFlow_found_low { initState localAddr t with
              offenders := [(a ++ "/" ++ b, o)] } g o hsome hlow]
        simp [initState, hcon, dictSet_single]

theorem same_key_escalates (localAddr a b : String) (t : Nat) (fs : List NetFlow)
    (hkey : ∀ g ∈ fs, g.ips = (a, b)) (hlen : fs.length = t + 2) :
    ∃ o : Offender, o.offenses = t + 1 ∧
      track_ips (initState localAddr t) fs =
        { initState localAddr t with rule_calls := [o] } := by
  rcases List.eq_nil_or_concat fs with hnil | ⟨l, g, hfs⟩
  · subst hnil
    simp at hlen
  all_goals rw [List.concat_eq_append] at hfs
  all_goals subst hfs
  · have hkl : ∀ x ∈ l, x.ips = (a, b) := fun x hx => hkey x (List.mem_append_left _ hx)
    have hg : g.ips = (a, b) := hkey g (by simp)
    have hcon : g.ips.1 ++ "/" ++ g.ips.2 = a ++ "/" ++ b := by rw [hg]
    have hll : l.length = t + 1 := by
      rw [List.length_append, List.length_singleton] at hlen
      omega
    obtain ⟨o, ho, hst⟩ := same_key_run localAddr a b t l hkl (by omega) (by omega)
    have hsome : dictGet [(a ++ "/" ++ b, o)] (g.ips.1 ++ "/" ++ g.ips.2) = some o := by
      rw [hcon]
      exact dictGet_single _ _
    have hhigh : o.offenses > t := by
      rw [ho, hll]
      omega
    refine ⟨o, by rw [ho, hll], ?_⟩
    rw [track_ips_snoc, hst]
    rw [procFlow_found_high { initState localAddr t with
          offenders := [(a ++ "/" ++ b, o)] } g o hsome hhigh]
    simp [initState, hcon, dictDel_single]

theorem same_key_recreates (localAddr a b : String) (t : Nat) (fs : List NetFlow)
    (hkey : ∀ g ∈ fs, g.ips = (a, b)) (hlen : fs.length = t + 3) :
    ∃ o o2 : Offender, o2.offenses = 1 ∧
      track_ips (initState localAddr t) fs =
        { initState localAddr t with
            offenders := [(a ++ "/" ++ b, o2)]
            rule_calls := [o] } := by
  rcases List.eq_nil_or_concat fs with hnil | ⟨l, g, hfs⟩
  · subst hnil
    simp at hlen
  all_goals rw [List.concat_eq_append] at hfs
  all_goals subst hfs
  · have hkl : ∀ x ∈ l, x.ips = (a, b) := fun x hx => hkey x (List.mem_append_left _ hx)
    have hg : g.ips = (a, b) := hkey g (by simp)
    have hcon : g.ips.1 ++ "/" ++ g.ips.2 = a ++ "/" ++ b := by rw [hg]
    have hll : l.length = t + 2 := by
      rw [List.length_append, List.length_singleton] at hlen
      omega
    obtain ⟨o, ho, hst⟩ := same_key_escalates localAddr a b t l hkl hll
    refine ⟨o, Offender.init (g.ips.1 ++ "/" ++ g.ips.2)
              (if g.ips.1 == localAddr then g.ports.1 else g.ports.2)
              g.protocol (g.ips.1 == localAddr), rfl, ?_⟩
    rw [track_ips_snoc, hst]
    rw [procFlow_new { initState localAddr t with rule_calls := [o] } g rfl]
    simp [initState, dictSet, hcon]

/-! ## Claim theorems -/

/-- Claim C1, counterexample: from a fresh tracker with `naughty_count = 2`,
three malicious flows on one key produce NO `create_rule` call at all (the
claim asserts exactly one, on the third flow). -/
theorem c1_three_flows_produce_no_rule_call :
    (track_ips (initState "10.0.0.5" 2)
        [sampleFlow, sampleFlow, sampleFlow]).rule_calls = [] ∧
    ¬ (track_ips (initState "10.0.0.5" 2)
        [sampleFlow, sampleFlow, sampleFlow]).rule_calls.length = 1 := by
  refine ⟨rfl, by decide⟩

/-- Claim C1, amended: with `naughty_count = 2`, three same-key flows
produce no `create_rule` call; four same-key flows produce exactly one,
and it occurs while processing the fourth flow. -/
theorem c1_one_rule_call_on_fourth_flow (localAddr a b : String) (fs : List NetFlow)
    (hkey : ∀ g ∈ fs, g.ips = (a, b)) :
    (fs.length = 3 → (track_ips (initState localAddr 2) fs).rule_calls = []) ∧
    (fs.length = 4 → (track_ips (initState localAddr 2) fs).rule_calls.length = 1) := by
  constructor
  · intro h3
    obtain ⟨o, ho, hst⟩ := same_key_run localAddr a b 2 fs hkey (by omega) (by omega)
    rw [hst]
    rfl
  · intro h4
    obtain ⟨o, ho, hst⟩ := same_key_escalates localAddr a b 2 fs hkey (by omega)
    rw [hst]
    rfl

/-- Claim C1, witness for the amended theorem at a concrete run. -/
theorem c1_one_rule_call_on_fourth_flow_witness :
    (track_ips (initState "10.0.0.5" 2)
        [sampleFlow, sampleFlow, sampleFlow]).rule_calls = [] ∧
    (track_ips (initState "10.0.0.5" 2)
        [sampleFlow, sampleFlow, sampleFlow, sampleFlow]).rule_calls.length = 1 :=
  ⟨(c1_one_rule_call_on_fourth_flow "10.0.0.5" "1.2.3.4" "5.6.7.8"
      [sampleFlow, sampleFlow, sampleFlow] (by decide)).1 rfl,
   (c1_one_rule_call_on_fourth_flow "10.0.0.5" "1.2.3.4" "5.6.7.8"
      [sampleFlow, sampleFlow, sampleFlow, sampleFlow] (by decide)).2 rfl⟩

/-- Claim C2: a newly created Offender has offense count 1 (that part is
right), but `set((port, protocol))` stores the two scalar elements
`port` and `protocol`, NOT the singleton set containing the pair
`(port, protocol)`: the pair is absent. -/
theorem c2_new_offender_stores_scalars_not_pair :
    (Offender.init "1.2.3.4/5.6.7.8" 80 "tcp" true).offenses = 1 ∧
    PMElem.portElem 80 ∈ (Offender.init "1.2.3.4/5.6.7.8" 80 "tcp" true).port_mappings ∧
    PMElem.protoElem "tcp" ∈ (Offender.init "1.2.3.4/5.6.7.8" 80 "tcp" true).port_mappings ∧
    PMElem.pairElem 80 "tcp" ∉ (Offender.init "1.2.3.4/5.6.7.8" 80 "tcp" true).port_mappings := by
  refine ⟨rfl, by decide, by decide, by decide⟩

/-- Claim C3: the executed `IPtable.create_rule` returns right after its
print, so no drop rule is generated at all (offenders table and both ban
registries are untouched); moreover its unreachable tail selects
`from_ip if from_ip == local_ip else to_ip`, which at local address
10.0.0.5 picks 10.0.0.5 — the LOCAL side — for both key orientations,
not the non-local side the claim requires. -/
theorem c3_create_rule_builds_no_rule_and_dead_tail_picks_local :
    (∀ (st : FWState) (off : Offender),
        (IPtable.create_rule st off).offenders = st.offenders ∧
        (IPtable.create_rule st off).input_banned = st.input_banned ∧
        (IPtable.create_rule st off).output_banned = st.output_banned) ∧
    create_rule_match_ip "10.0.0.5" "8.8.8.8/10.0.0.5" = some "10.0.0.5" ∧
    create_rule_match_ip "10.0.0.5" "10.0.0.5/8.8.8.8" = some "10.0.0.5" :=
  ⟨fun _ _ => ⟨rfl, rfl, rfl⟩, rfl, rfl⟩

/-- Claim C4, counterexample: with `naughty_count = 2`, after a finished
batch of three same-key flows the table still holds the offender with
offense count 3 > 2. -/
theorem c4_offender_above_threshold_stays_in_table :
    offenseView (track_ips (initState "10.0.0.5" 2)
        [sampleFlow, sampleFlow, sampleFlow]) = [("1.2.3.4/5.6.7.8", 3)] ∧
    (track_ips (initState "10.0.0.5" 2)
        [sampleFlow, sampleFlow, sampleFlow]).naughty_count = 2 ∧
    ¬ (3 ≤ 2) := by
  refine ⟨rfl, rfl, by omega⟩

/-- Claim C4, amended: at every state reachable by `track_ips`, every
live offender satisfies `offenses ≤ naughty_count + 1` (an offender may
exceed the threshold by exactly one, and is removed only when the next
flow on its key arrives). -/
theorem c4_live_offense_counts_bounded (st : FWState) (cl : List NetFlow)
    (h : offendersBounded st = true) : offendersBounded (track_ips st cl) = true := by
  induction cl generalizing st with
  | nil => exact h
  | cons f rest ih =>
      have heq : track_ips st (f :: rest) = track_ips (procFlow st f) rest := rfl
      rw [heq]
      exact ih (procFlow st f) (procFlow_preserves_bounded st f h)

/-- Claim C4, witness for the amended theorem at a concrete run. -/
theorem c4_live_offense_counts_bounded_witness :
    offendersBounded (track_ips (initState "10.0.0.5" 2)
        [sampleFlow, sampleFlow, sampleFlow]) = true :=
  c4_live_offense_counts_bounded (initState "10.0.0.5" 2)
    [sampleFlow, sampleFlow, sampleFlow] (by decide)

/-- Claim C5: for same-key flows from a fresh tracker, the offense count
after N flows equals N while N ≤ naughty_count + 1 (i.e. until the first
escalation), the key is absent right after the escalating flow
(N = naughty_count + 2), and the next flow re-creates it at count 1. -/
theorem c5_same_key_offense_progression (localAddr a b : String) (t : Nat)
    (fs : List NetFlow) (hkey : ∀ g ∈ fs, g.ips = (a, b)) :
    (1 ≤ fs.length → fs.length ≤ t + 1 →
      offenseView (track_ips (initState localAddr t) fs) =
        [(a ++ "/" ++ b, fs.length)]) ∧
    (fs.length = t + 2 → (track_ips (initState localAddr t) fs).offenders = []) ∧
    (fs.length = t + 3 →
      offenseView (track_ips (initState localAddr t) fs) = [(a ++ "/" ++ b, 1)]) := by
  refine ⟨fun h1 h2 => ?_, fun hlen => ?_, fun hlen => ?_⟩
  · obtain ⟨o, ho, hst⟩ := same_key_run localAddr a b t fs hkey h1 h2
    rw [hst]
    simp [offenseView, initState, ho]
  · obtain ⟨o, ho, hst⟩ := same_key_escalates localAddr a b t fs hkey hlen
    rw [hst]
    rfl
  · obtain ⟨o, o2, ho2, hst⟩ := same_key_recreates localAddr a b t fs hkey hlen
    rw [hst]
    simp [offenseView, initState, ho2]

/-- Claim C5, witness at a concrete run (two flows, threshold 2). -/
theorem c5_same_key_offense_progression_witness :
    offenseView (track_ips (initState "10.0.0.5" 2) [sampleFlow, sampleFlow]) =
      [("1.2.3.4" ++ "/" ++ "5.6.7.8",
        ([sampleFlow, sampleFlow] : List NetFlow).length)] :=
  (c5_same_key_offense_progression "10.0.0.5" "1.2.3.4" "5.6.7.8" 2
      [sampleFlow, sampleFlow] (by decide)).1 (by decide) (by decide)

/-- Claim C6: with `naughty_count = 1` and same-key flows on ports 80
then 443, escalation happens on the third flow, and the offender handed
to `create_rule` holds the pair (443, tcp) but NOT the pair (80, tcp):
the first flow's pair was stored as the two scalars 80 and "tcp"
(and the executed `create_rule` builds no match clauses at all). -/
theorem c6_escalated_rule_lacks_first_flow_pair :
    (track_ips (initState "10.0.0.5" 1)
        [flowPort80, flowPort443, flowPort443]).rule_calls.length = 1 ∧
    PMElem.pairElem 443 "tcp" ∈
      ((track_ips (initState "10.0.0.5" 1)
          [flowPort80, flowPort443, flowPort443]).rule_calls.headD
        (Offender.init "" 0 "" false)).port_mappings ∧
    PMElem.pairElem 80 "tcp" ∉
      ((track_ips (initState "10.0.0.5" 1)
          [flowPort80, flowPort443, flowPort443]).rule_calls.headD
        (Offender.init "" 0 "" false)).port_mappings ∧
    PMElem.portElem 80 ∈
      ((track_ips (initState "10.0.0.5" 1)
          [flowPort80, flowPort443, flowPort443]).rule_calls.headD
        (Offender.init "" 0 "" false)).port_mappings := by
  refine ⟨rfl, by decide, by decide, by decide⟩

/-- Claim C7: the factory returns the iptables backend for "linux", and
raises for anything else — but the error message is one fixed literal
(the source string is not an f-string), identical for "windows" and
"darwin", so it cannot name the entered platform value. -/
theorem c7_factory_linux_and_fixed_error_message :
    create_firewall "linux" = Except.ok FirewallBackend.iptable ∧
    create_firewall "windows" = Except.error create_firewall_error_text ∧
    create_firewall "windows" = create_firewall "darwin" :=
  ⟨rfl, rfl, rfl⟩

/-- Claim C8 (spec-modelled): `expireStaleBans` keeps exactly the entries
with `now - installedAtMinute < ttl` (removing exactly the stale ones),
preserves the surviving entries and their order (sublist), and is
idempotent. -/
theorem c8_expire_exact_untouched_idempotent (registry : List (String × Nat))
    (nowMinute ttlMinutes : Nat) :
    (∀ e, e ∈ expireStaleBans registry nowMinute ttlMinutes ↔
        e ∈ registry ∧ nowMinute - e.2 < ttlMinutes) ∧
    (expireStaleBans registry nowMinute ttlMinutes).Sublist registry ∧
    expireStaleBans (expireStaleBans registry nowMinute ttlMinutes) nowMinute ttlMinutes =
      expireStaleBans registry nowMinute ttlMinutes := by
  refine ⟨?_, ?_, ?_⟩
  · intro e
    simp [expireStaleBans]
  · exact List.filter_sublist _
  · refine List.filter_eq_self.mpr ?_
    intro e he
    exact (List.mem_filter.mp he).2

/-- Claim C9: `create_rule` never records a ban entry: each invocation
only extends the call trace, leaving `input_banned` and `output_banned`
unchanged — and in a concrete run that escalates (threshold 0, two
flows), one `create_rule` call happens yet both registries stay empty. -/
theorem c9_create_rule_records_no_ban_entry :
    (∀ (st : FWState) (off : Offender),
        (IPtable.create_rule st off).rule_calls = st.rule_calls ++ [off] ∧
        (IPtable.create_rule st off).input_banned = st.input_banned ∧
        (IPtable.create_rule st off).output_banned = st.output_banned) ∧
    (track_ips (initState "10.0.0.5" 0) [sampleFlow, sampleFlow]).rule_calls.length = 1 ∧
    (track_ips (initState "10.0.0.5" 0) [sampleFlow, sampleFlow]).input_banned = [] ∧
    (track_ips (initState "10.0.0.5" 0) [sampleFlow, sampleFlow]).output_banned = [] :=
  ⟨fun _ _ => ⟨rfl, rfl, rfl⟩, rfl, rfl, rfl⟩

/-- Claim C10: when a flow finds a stored offender already above the
threshold, processing that flow only appends the STORED offender
(unchanged — the triggering flow's port/protocol pair is not added) to
the `create_rule` trace and deletes the key; every other part of the
state is untouched. -/
theorem c10_escalating_flow_only_logs_and_removes (st : FWState) (f : NetFlow)
    (o : Offender) (hsome : dictGet st.offenders (flowKey f) = some o)
    (hhigh : o.offenses > st.naughty_count) :
    procFlow st f =
      { st with offenders := dictDel st.offenders (flowKey f),
                rule_calls := st.rule_calls ++ [o] } :=
  procFlow_found_high st f o hsome hhigh

/-- Claim C10, witness at a concrete escalating state. -/
theorem c10_escalating_flow_only_logs_and_removes_witness :
    procFlow
      { local_ip := "10.0.0.5", naughty_count := 0,
        offenders := [("1.2.3.4/5.6.7.8", sampleOffender)],
        input_banned := [], output_banned := [], rule_calls := [] } sampleFlow =
      { local_ip := "10.0.0.5", naughty_count := 0,
        offenders := dictDel [("1.2.3.4/5.6.7.8", sampleOffender)] (flowKey sampleFlow),
        input_banned := [], output_banned := [],
        rule_calls := ([] : List Offender) ++ [sampleOffender] } :=
  c10_escalating_flow_only_logs_and_removes
    { local_ip := "10.0.0.5", naughty_count := 0,
      offenders := [("1.2.3.4/5.6.7.8", sampleOffender)],
      input_banned := [], output_banned := [], rule_calls := [] } sampleFlow
    sampleOffender (by decide) (by decide)
